import Mathlib

/-!
Verification development for the diff-analysis core of the
aws-code-commit-pr-mcp server (the `IntelligentDiffAnalyzer`,
`chunkGitDiff` and `LinePositionCalculator` code).

The TypeScript source is shallowly embedded: JavaScript strings are Lean
strings, a line split `content.split('\n')` is `splitNl`, the join
`lines.join('\n')` is `joinNl`, JavaScript numbers holding line counts
and indices are `Nat` or `Int`, and the floating-point ratios compared
against literals such as 0.3 are modelled as exact rationals.
Collaborator calls are explicit oracle arguments: a fetch that may throw
becomes an `Except String String` or `Option String` value, and the pure
npm diff-library functions `Diff.diffLines` / `Diff.createPatch` become
function parameters (the former constrained by its documented trace
property `IsDiffTrace` where a theorem needs it); the random blob-hash
placeholders are passed in as the `hash1` / `hash2` arguments.
-/

namespace CodeCommitDiff

/-- Model of JavaScript `s.split('\n')`: auxiliary walk over the
character list, `acc` holding the current line reversed. -/
def splitNlAux : List Char → List Char → List String
  | [], acc => [String.mk acc.reverse]
  | c :: cs, acc =>
    if c = '\n' then String.mk acc.reverse :: splitNlAux cs []
    else splitNlAux cs (c :: acc)

/-- JavaScript `s.split('\n')`.  `splitNl "" = [""]` and a trailing
newline yields a trailing empty line, exactly as in JavaScript. -/
def splitNl (s : String) : List String :=
  splitNlAux s.data []

/-- JavaScript `lines.join('\n')`. -/
def joinNl : List String → String
  | [] => ""
  | [s] => s
  | s :: rest => s ++ "\n" ++ joinNl rest

/-- The whitespace characters removed by JavaScript `String.trim`
(the common ones: space, tab, newline, carriage return, form feed,
vertical tab). -/
def isJsWhitespace (c : Char) : Bool :=
  c = ' ' || c = '\t' || c = '\n' || c = '\r' || c = '\x0b' || c = '\x0c'

/-- JavaScript `s.trim()`: strip leading and trailing whitespace. -/
def jsTrim (s : String) : String :=
  String.mk (((s.data.dropWhile isJsWhitespace).reverse.dropWhile isJsWhitespace).reverse)

/-- Character-list prefix test used to model both `line.startsWith(p)`
and the anchored regular expressions `/^(kw1|kw2|...)/`. -/
def leadsWith : List Char → List Char → Bool
  | [], _ => true
  | _ :: _, [] => false
  | p :: ps, c :: cs => p = c && leadsWith ps cs

/-- Test whether `s` starts with the literal `pat`. -/
def strLeads (s pat : String) : Bool :=
  leadsWith pat.data s.data

/-- The `type` field of a `DiffChunk`. -/
inductive ChunkType where
  | added
  | removed
  | modified
  | context
  deriving DecidableEq, BEq, Repr

/-- The `DiffChunk` record from `intelligent-diff-analyzer.ts`.  The optional
`contextBefore` / `contextAfter` fields are never set on the library
code path and default to `none`. -/
structure DiffChunk where
  type : ChunkType
  beforeLineStart : Int
  beforeLineEnd : Int
  afterLineStart : Int
  afterLineEnd : Int
  content : List String
  contextBefore : Option (List String) := none
  contextAfter : Option (List String) := none
  deriving DecidableEq, Repr

/-- The `summary` record of an `IntelligentDiff`. -/
structure DiffSummary where
  linesAdded : Nat
  linesRemoved : Nat
  linesModified : Nat
  totalChanges : Nat
  deriving DecidableEq, Repr

/-- A part returned by the npm library call `Diff.diffLines`: a maximal
run of lines marked added, removed or common.  `lines` is the list of
line texts of the part, i.e. `part.value.split('\n')` with the trailing
empty entry popped, exactly the list the source computes from
`part.value` (the library emits parts at line-token boundaries). -/
inductive PartKind where
  | added
  | removed
  | common
  deriving DecidableEq, BEq, Repr

structure DiffPart where
  kind : PartKind
  lines : List String
  deriving DecidableEq, Repr

/-- The loop body of `performLineDiffWithLibrary` (lines 148–194 of
`intelligent-diff-analyzer.ts`): walk the parts, keeping the 1-based
`beforeLineNum` / `afterLineNum` cursors, and emit one chunk per part
(common parts only when non-empty, and only then do the cursors
advance, as in the source). -/
def buildChunks : List DiffPart → Int → Int → List DiffChunk
  | [], _, _ => []
  | p :: ps, beforeLineNum, afterLineNum =>
    match p.kind with
    | PartKind.added =>
      { type := ChunkType.added,
        beforeLineStart := beforeLineNum,
        beforeLineEnd := beforeLineNum - 1,
        afterLineStart := afterLineNum,
        afterLineEnd := afterLineNum + p.lines.length - 1,
        content := p.lines } :: buildChunks ps beforeLineNum (afterLineNum + p.lines.length)
    | PartKind.removed =>
      { type := ChunkType.removed,
        beforeLineStart := beforeLineNum,
        beforeLineEnd := beforeLineNum + p.lines.length - 1,
        afterLineStart := afterLineNum,
        afterLineEnd := afterLineNum - 1,
        content := p.lines } :: buildChunks ps (beforeLineNum + p.lines.length) afterLineNum
    | PartKind.common =>
      if 0 < p.lines.length then
        { type := ChunkType.context,
          beforeLineStart := beforeLineNum,
          beforeLineEnd := beforeLineNum + p.lines.length - 1,
          afterLineStart := afterLineNum,
          afterLineEnd := afterLineNum + p.lines.length - 1,
          content := p.lines }
          :: buildChunks ps (beforeLineNum + p.lines.length) (afterLineNum + p.lines.length)
      else buildChunks ps beforeLineNum afterLineNum

/-- Result record of `performLineDiffWithLibrary`. -/
structure DiffResult where
  chunks : List DiffChunk
  summary : DiffSummary
  deriving Repr

/-- Model of `performLineDiffWithLibrary`, with the `Diff.diffLines` call made an
explicit argument (`parts`).  Chunks come from the loop (`buildChunks`
starting both cursors at 1); `linesAdded` / `linesRemoved` accumulate
the added / removed part lengths, `linesModified` is hard-coded 0 and
`totalChanges = linesAdded + linesRemoved`, as in the source. -/
def performLineDiffWithLibrary (parts : List DiffPart) : DiffResult :=
  let linesAdded :=
    ((parts.filter (fun p => p.kind == PartKind.added)).map (fun p => p.lines.length)).sum
  let linesRemoved :=
    ((parts.filter (fun p => p.kind == PartKind.removed)).map (fun p => p.lines.length)).sum
  { chunks := buildChunks parts 1 1,
    summary :=
      { linesAdded := linesAdded, linesRemoved := linesRemoved,
        linesModified := 0, totalChanges := linesAdded + linesRemoved } }

/-- The documented behaviour of `Diff.diffLines before after`: the parts
partition both inputs, i.e. the non-added parts concatenate to the
before line sequence and the non-removed parts concatenate to the after
line sequence. -/
def IsDiffTrace (parts : List DiffPart) (A B : List String) : Prop :=
  ((parts.filter (fun p => !(p.kind == PartKind.added))).map DiffPart.lines).flatten = A ∧
  ((parts.filter (fun p => !(p.kind == PartKind.removed))).map DiffPart.lines).flatten = B

/-- The before-side content of a chunk list: the lines of its context
and removed chunks, in order. -/
def coveredBeforeLines (chunks : List DiffChunk) : List String :=
  ((chunks.filter
      (fun c => c.type == ChunkType.context || c.type == ChunkType.removed)).map
    DiffChunk.content).flatten

/-- The after-side content of a chunk list: the lines of its context
and added chunks, in order. -/
def coveredAfterLines (chunks : List DiffChunk) : List String :=
  ((chunks.filter
      (fun c => c.type == ChunkType.context || c.type == ChunkType.added)).map
    DiffChunk.content).flatten

/-- Return record of `chunkGitDiff`. -/
structure ChunkedDiff where
  chunk : String
  totalHunks : Nat
  hasMore : Bool
  nextChunkOffset : Option Int
  deriving DecidableEq, Repr

/-- Loop state of `chunkGitDiff`'s header/hunk separation. -/
structure GitDiffScan where
  headerLines : List String
  hunks : List (List String)
  currentHunk : List String
  inHunk : Bool
  deriving Repr

/-- One iteration of the `for (const line of lines)` loop in
`chunkGitDiff`: a line starting with `@@` closes the current hunk (when
any) and opens a new one; otherwise the line joins the current hunk or,
before the first hunk header, the header block. -/
def gitDiffScanStep (st : GitDiffScan) (line : String) : GitDiffScan :=
  if strLeads line "@@" then
    { st with
      hunks := if st.inHunk && !st.currentHunk.isEmpty then st.hunks ++ [st.currentHunk]
               else st.hunks,
      currentHunk := [line],
      inHunk := true }
  else if st.inHunk then { st with currentHunk := st.currentHunk ++ [line] }
  else { st with headerLines := st.headerLines ++ [line] }

/-- The header block and hunk list `chunkGitDiff` extracts from a
formatted diff (the loop plus the final "add the last hunk" step). -/
def parseGitDiff (gitDiff : String) : List String × List (List String) :=
  let st := (splitNl gitDiff).foldl gitDiffScanStep ⟨[], [], [], false⟩
  (st.headerLines,
   if st.inHunk && !st.currentHunk.isEmpty then st.hunks ++ [st.currentHunk] else st.hunks)

/-- Model of `chunkGitDiff` from `index.ts`: header/hunk split, 0-based clamped
start index, end index capped at the hunk count, and the paged response.
`chunkOffset` / `chunkLimit` are JavaScript numbers, kept as `Int`. -/
def chunkGitDiff (gitDiff : String) (chunkOffset chunkLimit : Int) : ChunkedDiff :=
  let p := parseGitDiff gitDiff
  let totalHunks := p.2.length
  let startIndex : Int := max 0 (chunkOffset - 1)
  let endIndex : Int := min (totalHunks : Int) (startIndex + chunkLimit)
  let chunkLines := p.1 ++ ((p.2.drop startIndex.toNat).take (endIndex - startIndex).toNat).flatten
  let hasMore : Bool := endIndex < (totalHunks : Int)
  { chunk := joinNl chunkLines,
    totalHunks := totalHunks,
    hasMore := hasMore,
    nextChunkOffset := if hasMore then some (endIndex + 1) else none }

/-- The change type of a file difference: added, deleted or modified. -/
inductive ChangeType where
  | A
  | D
  | M
  deriving DecidableEq, BEq, Repr

/-- The `complexity` tier. -/
inductive Complexity where
  | low
  | medium
  | high
  deriving DecidableEq, BEq, Repr

/-- The `analysisRecommendation` record. -/
structure AnalysisRecommendation where
  needsFullFile : Bool
  reason : String
  contextLines : Nat
  complexity : Complexity
  deriving DecidableEq, Repr

/-- The keyword alternatives of the anchored regular expression
`/^(import|export|class|interface|function|def|from|package)/` used on
trimmed lines in `shouldRecommendFullFile`. -/
def structuralKeywords : List String :=
  ["import", "export", "class", "interface", "function", "def", "from", "package"]

/-- The structural-signal test on one line: the trimmed line starts
with one of the keywords (the regex has no word boundary, so a bare
prefix match is faithful). -/
def isStructuralLine (line : String) : Bool :=
  structuralKeywords.any (fun kw => strLeads (jsTrim line) kw)

/-- Model of `shouldRecommendFullFile` from `intelligent-diff-analyzer.ts`:
add/delete always need the full file; then small files (at most 500
lines on the larger side), high change ratio (ratio of non-context
chunks to the larger line count above 0.3, exact rational model of the
JavaScript float), and finally a structural keyword on any line of any
chunk. -/
def shouldRecommendFullFile (chunks : List DiffChunk)
    (beforeContent afterContent : String) (changeType : ChangeType) : Bool :=
  if changeType = ChangeType.A ∨ changeType = ChangeType.D then true
  else
    let beforeLines := (splitNl beforeContent).length
    let afterLines := (splitNl afterContent).length
    if max beforeLines afterLines ≤ 500 then true
    else
      let totalChanges := (chunks.filter (fun c => !(c.type == ChunkType.context))).length
      if (totalChanges : ℚ) / (max beforeLines afterLines : ℚ) > 3 / 10 then true
      else if chunks.any (fun c => c.content.any isStructuralLine) then true
      else false

/-- Model of `getRecommendationReason`: fixed template strings. -/
def getRecommendationReason (needsFullFile : Bool) (complexity : Complexity)
    (changeType : ChangeType) : String :=
  match changeType with
  | ChangeType.A => "New file requires full context to understand structure and purpose"
  | ChangeType.D => "Deleted file should be reviewed in full to understand impact"
  | ChangeType.M =>
    if needsFullFile then
      if complexity = Complexity.high then
        "Extensive changes require full file context for proper understanding"
      else "Structural changes or small file size makes full context beneficial"
    else "Focused diff with context should be sufficient for understanding changes"

/-- Model of `getRecommendedContextLines`: context lines per complexity tier. -/
def getRecommendedContextLines : Complexity → Nat
  | Complexity.high => 8
  | Complexity.medium => 5
  | Complexity.low => 3

/-- Model of `analyzeComplexity` from `intelligent-diff-analyzer.ts`: the change
ratio (non-context chunk count over the larger line count, floored at
1) decides the tier together with the absolute change count; the
thresholds 0.5 and 0.2 are modelled as the exact rationals 1/2 and
1/5. -/
def analyzeComplexity (chunks : List DiffChunk)
    (beforeContent afterContent : String) (changeType : ChangeType) : AnalysisRecommendation :=
  let beforeLines := (splitNl beforeContent).length
  let afterLines := (splitNl afterContent).length
  let totalChanges := (chunks.filter (fun c => !(c.type == ChunkType.context))).length
  let ratio : ℚ := (totalChanges : ℚ) / (max (max beforeLines afterLines) 1 : ℚ)
  let needsFullFile := shouldRecommendFullFile chunks beforeContent afterContent changeType
  let complexity :=
    if ratio > 1 / 2 ∨ totalChanges > 20 then Complexity.high
    else if ratio > 1 / 5 ∨ totalChanges > 10 then Complexity.medium
    else Complexity.low
  { needsFullFile := needsFullFile,
    reason := getRecommendationReason needsFullFile complexity changeType,
    contextLines := getRecommendedContextLines complexity,
    complexity := complexity }

/-- A single context chunk whose content looks like an import line. -/
def ctxImportChunk : DiffChunk :=
  { type := ChunkType.context, beforeLineStart := 1, beforeLineEnd := 1,
    afterLineStart := 1, afterLineEnd := 1, content := ["import x"] }

/-- A 501-line file content (500 newline characters). -/
def bigContent : String := String.mk (List.replicate 500 '\n')

/-- The `relativeFileVersion` values. -/
inductive FileVersion where
  | BEFORE
  | AFTER
  deriving DecidableEq, BEq, Repr

/-- JavaScript array indexing `lines[i]` for a possibly negative or
out-of-range `i`: `undefined` becomes `none`. -/
def jsIndex (lines : List String) (i : Int) : Option String :=
  if i < 0 then none else lines[i.toNat]?

/-- The shared per-direction body of `mapLineBetweenVersions` (the
source spells it out once for BEFORE→AFTER and once for AFTER→BEFORE
with the roles swapped): take the trimmed source line, and when it is
truthy (the line exists and trims to a non-empty string) look for the
first destination line with the same trimmed text; otherwise fall back
to `Math.min(Math.ceil(lineNumber * ratio), destLines.length)` with
`ratio = destLines.length / srcLines.length` (JavaScript float
arithmetic modelled as exact rationals). -/
def mapLineOneWay (srcLines dstLines : List String) (lineNumber : Int) : Int :=
  let fallback : Int :=
    min ⌈(lineNumber : ℚ) * ((dstLines.length : ℚ) / (srcLines.length : ℚ))⌉
      (dstLines.length : Int)
  match jsIndex srcLines (lineNumber - 1) with
  | none => fallback
  | some s =>
    let content := jsTrim s
    if content = "" then fallback
    else
      match dstLines.findIdx? (fun line => jsTrim line = content) with
      | some i => (i : Int) + 1
      | none => fallback

/-- Model of `mapLineBetweenVersions` from `line-position-calculator.ts`.  The
two `getFile` calls are modelled by `fetchBefore` / `fetchAfter`
(`none` = the fetch throws, in which case the `catch` returns `null`,
i.e. `none`).  Equal versions return the line number before any fetch
is consulted. -/
def mapLineBetweenVersions (fetchBefore fetchAfter : Option String) (lineNumber : Int)
    (fromVersion toVersion : FileVersion) : Option Int :=
  if fromVersion = toVersion then some lineNumber
  else
    match fetchBefore, fetchAfter with
    | some beforeContent, some afterContent =>
      let beforeLines := splitNl beforeContent
      let afterLines := splitNl afterContent
      if fromVersion = FileVersion.BEFORE then
        some (mapLineOneWay beforeLines afterLines lineNumber)
      else some (mapLineOneWay afterLines beforeLines lineNumber)
    | _, _ => none

/-- The amended C5's fallback: `ceil(k * destLen / srcLen)` clamped
into `[1, destLen]`. -/
def clampedProportional (srcLines dstLines : List String) (k : Int) : Int :=
  max 1 (min ⌈(k : ℚ) * (dstLines.length : ℚ) / (srcLines.length : ℚ)⌉ (dstLines.length : Int))

/-- The amended C5, stated in the claim's own words: if the source line
at the (1-based) number exists and its trimmed text is NON-EMPTY and
occurs (compared trimmed) in the destination, the 1-based index of the
first occurrence; otherwise the proportional fallback clamped into
`[1, destLen]`. -/
def claimMapSpec (srcLines dstLines : List String) (k : Int) : Int :=
  match jsIndex srcLines (k - 1) with
  | none => clampedProportional srcLines dstLines k
  | some s =>
    if jsTrim s = "" then clampedProportional srcLines dstLines k
    else
      match dstLines.findIdx? (fun line => jsTrim line = jsTrim s) with
      | some i => (i : Int) + 1
      | none => clampedProportional srcLines dstLines k

/-- The `lineNumberMapping` record. -/
structure LineNumberMapping where
  beforeLineCount : Nat
  afterLineCount : Nat
  exactLineNumbers : Bool
  awsConsoleCompatible : Bool
  deriving DecidableEq, Repr

/-- The `IntelligentDiff` record returned per file. -/
structure IntelligentDiff where
  filePath : String
  changeType : ChangeType
  chunks : List DiffChunk
  gitDiffFormat : String
  summary : DiffSummary
  analysisRecommendation : AnalysisRecommendation
  lineNumberMapping : LineNumberMapping
  deriving DecidableEq, Repr

/-- Model of `createFallbackAnalysis`: the degraded record returned when a
required content fetch fails (`errMsg` is `error.message`). -/
def createFallbackAnalysis (filePath : String) (changeType : ChangeType)
    (errMsg : String) : IntelligentDiff :=
  { filePath := filePath,
    changeType := changeType,
    chunks := [],
    gitDiffFormat :=
      "# Diff analysis failed for " ++ filePath ++ "\n# Error: " ++ errMsg ++
        "\n# Recommend using file_get for manual analysis",
    summary := { linesAdded := 0, linesRemoved := 0, linesModified := 0, totalChanges := 0 },
    analysisRecommendation :=
      { needsFullFile := changeType == ChangeType.A || changeType == ChangeType.D,
        reason := "File analysis failed (" ++ errMsg ++
          "). Recommend using file_get for manual analysis.",
        contextLines := 3,
        complexity := Complexity.medium },
    lineNumberMapping :=
      { beforeLineCount := 0, afterLineCount := 0,
        exactLineNumbers := false, awsConsoleCompatible := false } }

/-- Model of `generateProperGitDiff`, with `Diff.createPatch` an explicit oracle
(arguments: file name, old text, new text, old header, new header; the
`{context: 3}` option is folded into the oracle) and the two
`generateHashPlaceholder()` draws passed as `hash1` / `hash2`.  The
first four (A, D) or three (M) patch lines are replaced by a git-style
header exactly as in the source (`lines.slice(4)` keeps the patch from
its first hunk onwards). -/
def generateProperGitDiff (patchOracle : String → String → String → String → String → String)
    (hash1 hash2 : String) (filePath beforeContent afterContent : String)
    (changeType : ChangeType) : String :=
  match changeType with
  | ChangeType.A =>
    let lines := splitNl (patchOracle filePath "" afterContent "/dev/null" ("b/" ++ filePath))
    joinNl (("diff --git a/" ++ filePath ++ " b/" ++ filePath) ::
      "new file mode 100644" ::
      ("index 0000000.." ++ hash1) ::
      "--- /dev/null" ::
      ("+++ b/" ++ filePath) :: lines.drop 4)
  | ChangeType.D =>
    let lines := splitNl (patchOracle filePath beforeContent "" ("a/" ++ filePath) "/dev/null")
    joinNl (("diff --git a/" ++ filePath ++ " b/" ++ filePath) ::
      "deleted file mode 100644" ::
      ("index " ++ hash1 ++ "..0000000") ::
      ("--- a/" ++ filePath) ::
      ("+++ /dev/null") :: lines.drop 4)
  | ChangeType.M =>
    let lines :=
      splitNl (patchOracle filePath beforeContent afterContent ("a/" ++ filePath) ("b/" ++ filePath))
    joinNl (("diff --git a/" ++ filePath ++ " b/" ++ filePath) ::
      ("index " ++ hash1 ++ ".." ++ hash2 ++ " 100644") ::
      ("--- a/" ++ filePath) ::
      ("+++ b/" ++ filePath) :: lines.drop 4)

/-- The `index ...` header line of `generateProperGitDiff`, the only
line built from the random hash placeholders. -/
def indexSegment (changeType : ChangeType) (hash1 hash2 : String) : String :=
  match changeType with
  | ChangeType.A => "index 0000000.." ++ hash1
  | ChangeType.D => "index " ++ hash1 ++ "..0000000"
  | ChangeType.M => "index " ++ hash1 ++ ".." ++ hash2 ++ " 100644"

/-- Model of `analyzeFileDiff`: the before fetch is consulted unless the change
is an add, the after fetch unless it is a delete (a skipped fetch
leaves the empty string); a failing required fetch is caught and turned
into the fallback record, the before fetch first — otherwise the diff
pipeline runs and the full record is assembled. -/
def analyzeFileDiff (diffOracle : String → String → List DiffPart)
    (patchOracle : String → String → String → String → String → String)
    (hash1 hash2 : String) (fetchBefore fetchAfter : Except String String)
    (filePath : String) (changeType : ChangeType) : IntelligentDiff :=
  let beforeRes := if changeType ≠ ChangeType.A then fetchBefore else Except.ok ""
  let afterRes := if changeType ≠ ChangeType.D then fetchAfter else Except.ok ""
  match beforeRes, afterRes with
  | Except.error e, _ => createFallbackAnalysis filePath changeType e
  | Except.ok _, Except.error e => createFallbackAnalysis filePath changeType e
  | Except.ok beforeContent, Except.ok afterContent =>
    let diffResult := performLineDiffWithLibrary (diffOracle beforeContent afterContent)
    let recommendation := analyzeComplexity diffResult.chunks beforeContent afterContent changeType
    let gitDiffFormat :=
      generateProperGitDiff patchOracle hash1 hash2 filePath beforeContent afterContent changeType
    { filePath := filePath,
      changeType := changeType,
      chunks := diffResult.chunks,
      gitDiffFormat := gitDiffFormat,
      summary := diffResult.summary,
      analysisRecommendation := recommendation,
      lineNumberMapping :=
        { beforeLineCount := (splitNl beforeContent).length,
          afterLineCount := (splitNl afterContent).length,
          exactLineNumbers := true,
          awsConsoleCompatible := true } }

/-- A `FileDifference` as far as the analyzed code reads it:
`beforeBlob?.path`, `afterBlob?.path` and the change type. -/
structure FileDifference where
  beforePath : Option String
  afterPath : Option String
  changeType : ChangeType
  deriving DecidableEq, Repr

/-- JavaScript `a || b` on possibly-undefined strings: an empty string
is falsy. -/
def jsStrOr (a b : Option String) : Option String :=
  match a with
  | some s => if s = "" then b else some s
  | none => b

/-- JavaScript `a || b || "dflt"`, landing on a plain string. -/
def jsStrOrDefault (a : Option String) (dflt : String) : String :=
  match a with
  | some s => if s = "" then dflt else s
  | none => dflt

/-- The path expression `diff.afterBlob?.path || diff.beforeBlob?.path` as mapped over the
rejected batch's file lists (may stay `undefined` = `none`). -/
def filePathOfDifference (diff : FileDifference) : Option String :=
  jsStrOr diff.afterPath diff.beforePath

/-- Model of `generateBatchApproachSummary`: fixed templates keyed on how many
analyses need the full file, plus the batch-size note. -/
def generateBatchApproachSummary (analyses : List IntelligentDiff) : String :=
  let fullFileCount := (analyses.filter (fun a => a.analysisRecommendation.needsFullFile)).length
  let totalFiles := analyses.length
  let summary :=
    if fullFileCount = totalFiles then
      "All files require full context - significant changes detected"
    else if fullFileCount > totalFiles / 2 then
      "Most files need full context - moderate to extensive changes"
    else if fullFileCount > 0 then
      "Mixed approach needed - some files require full context, others can use focused diff"
    else "Focused diff analysis sufficient for all files - targeted changes detected"
  if totalFiles > 5 then
    summary ++ ". NOTE: Processed " ++ toString totalFiles ++
      " files (recommended maximum: 3-5 files per batch for optimal performance)"
  else summary ++ ". Batch size: " ++ toString totalFiles ++ " files (optimal for analysis)"

/-- The aggregate returned by `analyzeBatchDiffs` (analyses plus the
`batchRecommendations` fields). -/
structure BatchAnalysisResult where
  analyses : List IntelligentDiff
  totalFiles : Nat
  fullFileNeeded : Nat
  complexFiles : List String
  simpleFiles : List String
  approachSummary : String
  deriving DecidableEq, Repr

/-- Model of `analyzeBatchDiffs`: every file difference is analyzed (the
`Promise.all` over the mapped per-file analyses — `analyzeOne` stands
for the per-file closure, which owns the content fetches and hash
draws) and the aggregate is computed over all outcomes. -/
def analyzeBatchDiffs (analyzeOne : FileDifference → IntelligentDiff)
    (fileDifferences : List FileDifference) : BatchAnalysisResult :=
  let analyses := fileDifferences.map analyzeOne
  { analyses := analyses,
    totalFiles := analyses.length,
    fullFileNeeded := (analyses.filter (fun a => a.analysisRecommendation.needsFullFile)).length,
    complexFiles := ((analyses.filter
      (fun a => a.analysisRecommendation.complexity == Complexity.high)).map
        IntelligentDiff.filePath),
    simpleFiles := ((analyses.filter
      (fun a => a.analysisRecommendation.complexity == Complexity.low)).map
        IntelligentDiff.filePath),
    approachSummary := generateBatchApproachSummary analyses }

/-- JavaScript `Math.ceil(n / m)` for non-negative integers. -/
def jsCeilDiv (n m : Nat) : Nat := (n + m - 1) / m

/-- Outcome of the `batch_diff_analyze` tool handler: either the
up-front rejection or the batch analysis result. -/
inductive BatchHandlerResult where
  | tooManyFiles (recommendedBatches : Nat)
      (firstBatch remainingFiles : List (Option String))
  | analyzed (result : BatchAnalysisResult)
  deriving Repr

/-- The `batch_diff_analyze` handler from `index.ts`: more than 5 files
are rejected before any per-file analysis with the recommended batch
count and the path split; otherwise `analyzeBatchDiffs` runs. -/
def batchDiffAnalyzeHandler (analyzeOne : FileDifference → IntelligentDiff)
    (fileDifferences : List FileDifference) : BatchHandlerResult :=
  if fileDifferences.length > 5 then
    BatchHandlerResult.tooManyFiles
      (jsCeilDiv fileDifferences.length 5)
      ((fileDifferences.take 5).map filePathOfDifference)
      ((fileDifferences.drop 5).map filePathOfDifference)
  else BatchHandlerResult.analyzed (analyzeBatchDiffs analyzeOne fileDifferences)

/-! ## Theorems -/

@[simp] theorem splitNlAux_ne_nil (cs : List Char) (acc : List Char) :
    splitNlAux cs acc ≠ [] := by
  induction cs generalizing acc with
  | nil => simp [splitNlAux]
  | cons c cs ih =>
    simp only [splitNlAux]
    split <;> simp [ih]

theorem splitNl_ne_nil (s : String) : splitNl s ≠ [] :=
  splitNlAux_ne_nil s.data []

theorem splitNl_length_pos (s : String) : 0 < (splitNl s).length :=
  List.length_pos.mpr (splitNl_ne_nil s)

theorem coveredBeforeLines_buildChunks (parts : List DiffPart) :
    ∀ b a : Int, coveredBeforeLines (buildChunks parts b a) =
      ((parts.filter (fun p => !(p.kind == PartKind.added))).map DiffPart.lines).flatten := by
  induction parts with
  | nil => intro b a; simp [buildChunks, coveredBeforeLines]
  | cons p ps ih =>
    intro b a
    cases hk : p.kind with
    | added => simp +decide [buildChunks, hk, coveredBeforeLines, List.filter_cons] at ih ⊢; exact ih _ _
    | removed =>
      simp +decide [buildChunks, hk, coveredBeforeLines, List.filter_cons] at ih ⊢
      exact ih _ _
    | common =>
      by_cases hl : 0 < p.lines.length
      · simp +decide [buildChunks, hk, hl, coveredBeforeLines, List.filter_cons] at ih ⊢
        exact ih _ _
      · have hnil : p.lines = [] := by
          cases h : p.lines with
          | nil => rfl
          | cons x xs => rw [h] at hl; simp at hl
        simp +decide [buildChunks, hk, hl, coveredBeforeLines, List.filter_cons, hnil] at ih ⊢
        exact ih b a

theorem coveredAfterLines_buildChunks (parts : List DiffPart) :
    ∀ b a : Int, coveredAfterLines (buildChunks parts b a) =
      ((parts.filter (fun p => !(p.kind == PartKind.removed))).map DiffPart.lines).flatten := by
  induction parts with
  | nil => intro b a; simp [buildChunks, coveredAfterLines]
  | cons p ps ih =>
    intro b a
    cases hk : p.kind with
    | removed => simp +decide [buildChunks, hk, coveredAfterLines, List.filter_cons] at ih ⊢; exact ih _ _
    | added =>
      simp +decide [buildChunks, hk, coveredAfterLines, List.filter_cons] at ih ⊢
      exact ih _ _
    | common =>
      by_cases hl : 0 < p.lines.length
      · simp +decide [buildChunks, hk, hl, coveredAfterLines, List.filter_cons] at ih ⊢
        exact ih _ _
      · have hnil : p.lines = [] := by
          cases h : p.lines with
          | nil => rfl
          | cons x xs => rw [h] at hl; simp at hl
        simp +decide [buildChunks, hk, hl, coveredAfterLines, List.filter_cons, hnil] at ih ⊢
        exact ih b a

/-- C1: for every pair of line sequences and every alignment the diff
library may return for them, the chunk list produced by
`performLineDiffWithLibrary` covers both inputs exactly: the content
lines of its context and removed chunks concatenate to the before
sequence, and the content lines of its context and added chunks
concatenate to the after sequence. -/
theorem performLineDiffWithLibrary_covers (parts : List DiffPart) (A B : List String)
    (h : IsDiffTrace parts A B) :
    coveredBeforeLines (performLineDiffWithLibrary parts).chunks = A ∧
    coveredAfterLines (performLineDiffWithLibrary parts).chunks = B := by
  obtain ⟨hA, hB⟩ := h
  constructor
  · rw [performLineDiffWithLibrary]
    simp only []
    rw [coveredBeforeLines_buildChunks parts 1 1, hA]
  · rw [performLineDiffWithLibrary]
    simp only []
    rw [coveredAfterLines_buildChunks parts 1 1, hB]

/-- Witness for C1 on the spec's own scenario
`before = ["a","b","c"]`, `after = ["a","x","c"]`. -/
theorem performLineDiffWithLibrary_covers_witness :
    coveredBeforeLines (performLineDiffWithLibrary
      [⟨PartKind.common, ["a"]⟩, ⟨PartKind.removed, ["b"]⟩,
       ⟨PartKind.added, ["x"]⟩, ⟨PartKind.common, ["c"]⟩]).chunks = ["a", "b", "c"] ∧
    coveredAfterLines (performLineDiffWithLibrary
      [⟨PartKind.common, ["a"]⟩, ⟨PartKind.removed, ["b"]⟩,
       ⟨PartKind.added, ["x"]⟩, ⟨PartKind.common, ["c"]⟩]).chunks = ["a", "x", "c"] :=
  performLineDiffWithLibrary_covers
    [⟨PartKind.common, ["a"]⟩, ⟨PartKind.removed, ["b"]⟩,
     ⟨PartKind.added, ["x"]⟩, ⟨PartKind.common, ["c"]⟩]
    ["a", "b", "c"] ["a", "x", "c"] ⟨rfl, rfl⟩

/-- C2: `chunkGitDiff` returns the leading header block plus the hunks
with 1-based indices in `[offset, offset+limit)` after clamping
`offset` below at 1; `totalHunks` is the parsed hunk count, independent
of `offset` and `limit`; `hasMore` holds exactly when
`offset(clamped) + limit - 1 < totalHunks`; `nextChunkOffset` is
present exactly when `hasMore`; and a non-positive `limit` yields the
header with an empty hunk range. -/
theorem chunkGitDiff_spec (d : String) (off lim : Int) :
    (chunkGitDiff d off lim).chunk =
      joinNl ((parseGitDiff d).1 ++
        (((parseGitDiff d).2.drop (max 1 off - 1).toNat).take lim.toNat).flatten) ∧
    (chunkGitDiff d off lim).totalHunks = (parseGitDiff d).2.length ∧
    ((chunkGitDiff d off lim).hasMore = true ↔
      max 1 off + lim - 1 < ((parseGitDiff d).2.length : Int)) ∧
    (chunkGitDiff d off lim).nextChunkOffset.isSome = (chunkGitDiff d off lim).hasMore ∧
    (lim ≤ 0 → (chunkGitDiff d off lim).chunk = joinNl (parseGitDiff d).1) := by
  have hstart : max 0 (off - 1) = max 1 off - 1 := by omega
  have htake :
      (((parseGitDiff d).2.drop (max 0 (off - 1)).toNat).take
        (min ((parseGitDiff d).2.length : Int) (max 0 (off - 1) + lim) - max 0 (off - 1)).toNat) =
      (((parseGitDiff d).2.drop (max 1 off - 1).toNat).take lim.toNat) := by
    rw [hstart]
    apply List.take_eq_take.mpr
    have hlen := List.length_drop (max 1 off - 1).toNat (parseGitDiff d).2
    omega
  refine ⟨?_, rfl, ?_, ?_, ?_⟩
  · simp only [chunkGitDiff]
    rw [htake]
  · simp only [chunkGitDiff, decide_eq_true_eq]
    omega
  · simp only [chunkGitDiff]
    by_cases h : min ((parseGitDiff d).2.length : Int) (max 0 (off - 1) + lim) <
        ((parseGitDiff d).2.length : Int) <;> simp [h]
  · intro hlim
    simp only [chunkGitDiff]
    rw [htake]
    have : lim.toNat = 0 := by omega
    rw [this]
    simp

/-- Witness for C2 at a concrete two-line diff with one hunk, offset 1
and limit 0: empty hunk range, header only, one total hunk, more hunks
remaining. -/
theorem chunkGitDiff_spec_witness :
    (chunkGitDiff "hdr\n@@ -1 +1 @@\nx" 1 0).chunk = "hdr" ∧
    (chunkGitDiff "hdr\n@@ -1 +1 @@\nx" 1 0).totalHunks = 1 ∧
    (chunkGitDiff "hdr\n@@ -1 +1 @@\nx" 1 0).hasMore = true := by
  have h := chunkGitDiff_spec "hdr\n@@ -1 +1 @@\nx" 1 0
  refine ⟨(h.2.2.2.2 (by decide)).trans (by decide), ?_, ?_⟩
  · rw [h.2.1]; decide
  · exact h.2.2.1.mpr (by decide)

/-- C4: the assigned tier is `high` when `changeRatio > 0.5` or
`totalChanges > 20`, else `medium` when `changeRatio > 0.2` or
`totalChanges > 10`, else `low`, with
`changeRatio = totalChanges / max(beforeLineCount, afterLineCount, 1)`
and `totalChanges` the number of non-context chunks; the recommended
context lines are 8 / 5 / 3 for high / medium / low. -/
theorem analyzeComplexity_spec (chunks : List DiffChunk) (bc ac : String) (ct : ChangeType) :
    (analyzeComplexity chunks bc ac ct).complexity =
      (if ((chunks.filter (fun c => !(c.type == ChunkType.context))).length : ℚ) /
            (max (max (splitNl bc).length (splitNl ac).length) 1 : ℚ) > 1 / 2 ∨
          (chunks.filter (fun c => !(c.type == ChunkType.context))).length > 20 then
        Complexity.high
       else if ((chunks.filter (fun c => !(c.type == ChunkType.context))).length : ℚ) /
            (max (max (splitNl bc).length (splitNl ac).length) 1 : ℚ) > 1 / 5 ∨
          (chunks.filter (fun c => !(c.type == ChunkType.context))).length > 10 then
        Complexity.medium
       else Complexity.low) ∧
    (analyzeComplexity chunks bc ac ct).contextLines =
      (match (analyzeComplexity chunks bc ac ct).complexity with
       | Complexity.high => 8
       | Complexity.medium => 5
       | Complexity.low => 3) := by
  refine ⟨rfl, ?_⟩
  have h : (analyzeComplexity chunks bc ac ct).contextLines =
      getRecommendedContextLines (analyzeComplexity chunks bc ac ct).complexity := rfl
  rw [h]
  cases (analyzeComplexity chunks bc ac ct).complexity <;> rfl

/-- The amended C3: for modifications, `needsFullFile` is true exactly
when the larger line count is at most 500, or the change ratio exceeds
0.3, or ANY line of ANY chunk — context chunks included, not only
changed lines — matches the structural-signal predicate; for adds and
deletes it is always true. -/
theorem shouldRecommendFullFile_spec (chunks : List DiffChunk) (bc ac : String) :
    shouldRecommendFullFile chunks bc ac ChangeType.A = true ∧
    shouldRecommendFullFile chunks bc ac ChangeType.D = true ∧
    (shouldRecommendFullFile chunks bc ac ChangeType.M = true ↔
      (max (splitNl bc).length (splitNl ac).length ≤ 500 ∨
       ((chunks.filter (fun c => !(c.type == ChunkType.context))).length : ℚ) /
         (max (splitNl bc).length (splitNl ac).length : ℚ) > 3 / 10 ∨
       chunks.any (fun c => c.content.any isStructuralLine) = true)) := by
  refine ⟨by simp +decide [shouldRecommendFullFile], by simp +decide [shouldRecommendFullFile], ?_⟩
  simp only [shouldRecommendFullFile]
  norm_num
  by_cases h1 : max (splitNl bc).length (splitNl ac).length ≤ 500 <;>
    by_cases h2 : ((chunks.filter (fun c => !(c.type == ChunkType.context))).length : ℚ) /
        (max (splitNl bc).length (splitNl ac).length : ℚ) > 3 / 10 <;>
      by_cases h3 : chunks.any (fun c => c.content.any isStructuralLine) = true <;>
        simp [h1, h2, h3]

theorem splitNl_replicate_nl (n : Nat) :
    splitNl (String.mk (List.replicate n '\n')) = List.replicate (n + 1) "" := by
  show splitNlAux (List.replicate n '\n') [] = List.replicate (n + 1) ""
  induction n with
  | zero => rfl
  | succ k ih => simpa [List.replicate, splitNlAux] using ih

/-- Counterexample to C3 as stated: a 501-line modification whose only
chunk is a context chunk containing an import-style line.  No CHANGED
line matches the structural predicate (there are no changed lines, the
file is large and the change ratio is 0), yet the code returns
`needsFullFile = true`, because it scans context chunks too. -/
theorem shouldRecommendFullFile_counterexample :
    shouldRecommendFullFile [ctxImportChunk] bigContent bigContent ChangeType.M = true ∧
    ¬ (max (splitNl bigContent).length (splitNl bigContent).length ≤ 500 ∨
       ((([ctxImportChunk].filter (fun c => !(c.type == ChunkType.context))).length : ℚ) /
         (max (splitNl bigContent).length (splitNl bigContent).length : ℚ) > 3 / 10) ∨
       ([ctxImportChunk].filter (fun c => !(c.type == ChunkType.context))).any
         (fun c => c.content.any isStructuralLine) = true) := by
  have hlen : (splitNl bigContent).length = 501 := by
    show (splitNl (String.mk (List.replicate 500 '\n'))).length = 501
    rw [splitNl_replicate_nl, List.length_replicate]
  have hfilter : ([ctxImportChunk].filter (fun c => !(c.type == ChunkType.context))) = [] := by
    decide
  have hany : [ctxImportChunk].any (fun c => c.content.any isStructuralLine) = true := by
    decide
  constructor
  · simp only [shouldRecommendFullFile, hlen, hfilter, hany, Nat.max_self,
      List.length_nil, Nat.cast_zero, zero_div]
    norm_num
  · intro h
    rcases h with h | h | h
    · rw [hlen] at h
      omega
    · rw [hfilter] at h
      simp at h
      exact absurd h (by norm_num)
    · rw [hfilter] at h
      simp at h

/-- C8: when source and target versions coincide the mapping returns
the line number unchanged — for every line number, even out of range,
and independently of the fetches (both may fail: the result is still
`some lineNumber`, so no content is consulted at all). -/
theorem mapLineBetweenVersions_same (fetchBefore fetchAfter : Option String)
    (lineNumber : Int) (v : FileVersion) :
    mapLineBetweenVersions fetchBefore fetchAfter lineNumber v v = some lineNumber := by
  simp [mapLineBetweenVersions]

theorem mapLineOneWay_eq_claimMapSpec (src dst : List String) (k : Int)
    (hk : 1 ≤ k) (hsrc : 0 < src.length) (hdst : 0 < dst.length) :
    mapLineOneWay src dst k = claimMapSpec src dst k := by
  have hq : (0 : ℚ) < (k : ℚ) * ((dst.length : ℚ) / (src.length : ℚ)) := by
    apply mul_pos
    · exact_mod_cast lt_of_lt_of_le Int.zero_lt_one hk
    · apply div_pos <;> exact_mod_cast ‹_›
  have hceil : 1 ≤ ⌈(k : ℚ) * ((dst.length : ℚ) / (src.length : ℚ))⌉ := by
    have := Int.ceil_pos.mpr hq
    omega
  have h1d : (1 : Int) ≤ (dst.length : Int) := by exact_mod_cast hdst
  have hclamp : clampedProportional src dst k =
      min ⌈(k : ℚ) * ((dst.length : ℚ) / (src.length : ℚ))⌉ (dst.length : Int) := by
    unfold clampedProportional
    rw [mul_div_assoc]
    exact max_eq_right (le_min hceil h1d)
  unfold mapLineOneWay claimMapSpec
  rw [hclamp]

/-- The amended C5 proved on the embedding: for contents `bc`, `ac` and
any line number `k ≥ 1`, the BEFORE→AFTER mapping returns exactly
`claimMapSpec` of the two line sequences. -/
theorem mapLineBetweenVersions_amended (bc ac : String) (k : Int) (hk : 1 ≤ k) :
    mapLineBetweenVersions (some bc) (some ac) k FileVersion.BEFORE FileVersion.AFTER =
      some (claimMapSpec (splitNl bc) (splitNl ac) k) := by
  have h := mapLineOneWay_eq_claimMapSpec (splitNl bc) (splitNl ac) k hk
    (splitNl_length_pos bc) (splitNl_length_pos ac)
  simp [mapLineBetweenVersions, h]

/-- Witness for the amended C5: source line 1 of `"a\nb"` (text `"a"`)
occurs first at destination position 2 of `"b\na"`, and the mapping
returns 2. -/
theorem mapLineBetweenVersions_amended_witness :
    mapLineBetweenVersions (some "a\nb") (some "b\na") 1
      FileVersion.BEFORE FileVersion.AFTER = some 2 := by
  have h := mapLineBetweenVersions_amended "a\nb" "b\na" 1 (by decide)
  rw [h]
  decide

/-- Counterexample to C5 as stated: the source line's trimmed text is
the empty string, which does occur (trimmed) in the destination, first
at 1-based position 3 — but the code treats the empty string as falsy,
skips the occurrence search and returns the proportional fallback 2. -/
theorem mapLineBetweenVersions_counterexample :
    jsIndex (splitNl "\nx") 0 = some "" ∧
    (splitNl "a\nb\n\nx").findIdx? (fun line => jsTrim line = jsTrim "") = some 2 ∧
    mapLineBetweenVersions (some "\nx") (some "a\nb\n\nx") 1
      FileVersion.BEFORE FileVersion.AFTER = some 2 := by
  refine ⟨by decide, by decide, ?_⟩
  have h1 : splitNl "\nx" = ["", "x"] := by decide
  have h2 : splitNl "a\nb\n\nx" = ["a", "b", "", "x"] := by decide
  have hceil : ⌈(4 : ℚ) / (2 : ℚ)⌉ = 2 := by norm_num
  simp [mapLineBetweenVersions, mapLineOneWay, h1, h2, jsIndex, jsTrim, hceil]

/-- C6: a batch of more than 5 files is rejected before any per-file
analysis, with `recommendedBatches = ceil(n/5)`, the first 5 paths and
the remaining paths; a batch of at most 5 files analyzes every file. -/
theorem batchDiffAnalyzeHandler_spec (analyzeOne : FileDifference → IntelligentDiff)
    (files : List FileDifference) :
    (files.length > 5 →
      batchDiffAnalyzeHandler analyzeOne files =
        BatchHandlerResult.tooManyFiles ((files.length + 4) / 5)
          ((files.take 5).map filePathOfDifference)
          ((files.drop 5).map filePathOfDifference)) ∧
    (files.length ≤ 5 →
      batchDiffAnalyzeHandler analyzeOne files =
        BatchHandlerResult.analyzed (analyzeBatchDiffs analyzeOne files) ∧
      (analyzeBatchDiffs analyzeOne files).analyses = files.map analyzeOne) := by
  constructor
  · intro h
    simp only [batchDiffAnalyzeHandler, if_pos h, jsCeilDiv]
    congr 1
  · intro h
    have h5 : ¬ files.length > 5 := by omega
    exact ⟨by simp only [batchDiffAnalyzeHandler, if_neg h5], rfl⟩

/-- Witness for C6: six files are rejected with 2 recommended batches,
the first five paths and the sixth path. -/
theorem batchDiffAnalyzeHandler_spec_witness :
    batchDiffAnalyzeHandler (fun _ => createFallbackAnalysis "" ChangeType.M "")
      [⟨none, some "f1", ChangeType.M⟩, ⟨none, some "f2", ChangeType.M⟩,
       ⟨none, some "f3", ChangeType.M⟩, ⟨none, some "f4", ChangeType.M⟩,
       ⟨none, some "f5", ChangeType.M⟩, ⟨none, some "f6", ChangeType.M⟩] =
      BatchHandlerResult.tooManyFiles 2
        [some "f1", some "f2", some "f3", some "f4", some "f5"] [some "f6"] := by
  have h := (batchDiffAnalyzeHandler_spec (fun _ => createFallbackAnalysis "" ChangeType.M "")
    [⟨none, some "f1", ChangeType.M⟩, ⟨none, some "f2", ChangeType.M⟩,
     ⟨none, some "f3", ChangeType.M⟩, ⟨none, some "f4", ChangeType.M⟩,
     ⟨none, some "f5", ChangeType.M⟩, ⟨none, some "f6", ChangeType.M⟩]).1 (by decide)
  rw [h]
  rfl

/-- C7: a failing required fetch never escapes `analyzeFileDiff` — it
yields exactly the fallback record, whose chunk list is empty, whose
summary counts are all zero, whose complexity is `medium` with 3
context lines, whose reason embeds the error message and whose
`needsFullFile` is true exactly for adds and deletes; and
`analyzeBatchDiffs` fills one slot per input file by the per-file
analysis alone, so one file's failure cannot touch the others. -/
theorem analyzeFileDiff_fallback_spec
    (dO : String → String → List DiffPart)
    (pO : String → String → String → String → String → String)
    (hashA hashB : String) (fetchBefore fetchAfter : Except String String)
    (fp : String) (ct : ChangeType) (e : String)
    (analyzeOne : FileDifference → IntelligentDiff) (files : List FileDifference) :
    ((createFallbackAnalysis fp ct e).chunks = [] ∧
     (createFallbackAnalysis fp ct e).summary = ⟨0, 0, 0, 0⟩ ∧
     (createFallbackAnalysis fp ct e).analysisRecommendation.complexity = Complexity.medium ∧
     (createFallbackAnalysis fp ct e).analysisRecommendation.contextLines = 3 ∧
     (createFallbackAnalysis fp ct e).analysisRecommendation.needsFullFile =
       (ct == ChangeType.A || ct == ChangeType.D) ∧
     (∃ pre post, (createFallbackAnalysis fp ct e).analysisRecommendation.reason =
       pre ++ e ++ post)) ∧
    ((if ct ≠ ChangeType.A then fetchBefore else Except.ok "") = Except.error e →
      analyzeFileDiff dO pO hashA hashB fetchBefore fetchAfter fp ct =
        createFallbackAnalysis fp ct e) ∧
    (∀ bc, (if ct ≠ ChangeType.A then fetchBefore else Except.ok "") = Except.ok bc →
      (if ct ≠ ChangeType.D then fetchAfter else Except.ok "") = Except.error e →
      analyzeFileDiff dO pO hashA hashB fetchBefore fetchAfter fp ct =
        createFallbackAnalysis fp ct e) ∧
    (analyzeBatchDiffs analyzeOne files).analyses = files.map analyzeOne := by
  refine ⟨⟨rfl, rfl, rfl, rfl, rfl,
    ⟨"File analysis failed (", "). Recommend using file_get for manual analysis.", rfl⟩⟩,
    ?_, ?_, rfl⟩
  · intro h
    simp only [analyzeFileDiff, h]
  · intro bc hb ha
    simp only [analyzeFileDiff, hb, ha]

/-- Witness for C7: a failing before fetch on a modification yields the
fallback record, whose `needsFullFile` is false for an `M` change. -/
theorem analyzeFileDiff_fallback_witness :
    analyzeFileDiff (fun _ _ => []) (fun _ _ _ _ _ => "") "h" "h"
      (Except.error "boom") (Except.ok "x") "f.ts" ChangeType.M =
      createFallbackAnalysis "f.ts" ChangeType.M "boom" ∧
    (createFallbackAnalysis "f.ts" ChangeType.M "boom").analysisRecommendation.needsFullFile
      = false := by
  have h := analyzeFileDiff_fallback_spec (fun _ _ => []) (fun _ _ _ _ _ => "") "h" "h"
    (Except.error "boom") (Except.ok "x") "f.ts" ChangeType.M "boom"
    (fun _ => createFallbackAnalysis "" ChangeType.M "") []
  exact ⟨h.2.1 rfl, rfl⟩

/-- C9: on a successful analysis (both fetches yield content — for adds
and deletes the skipped side is the empty string) the reported
`beforeLineCount` and `afterLineCount` are both at least 1, because
they are `content.split('\n').length`; the zero counts appear only in
the fallback record. -/
theorem analyzeFileDiff_lineCounts
    (dO : String → String → List DiffPart)
    (pO : String → String → String → String → String → String)
    (hashA hashB bc ac fp : String) (ct : ChangeType)
    (fp2 : String) (ct2 : ChangeType) (e : String) :
    1 ≤ (analyzeFileDiff dO pO hashA hashB (Except.ok bc) (Except.ok ac)
          fp ct).lineNumberMapping.beforeLineCount ∧
    1 ≤ (analyzeFileDiff dO pO hashA hashB (Except.ok bc) (Except.ok ac)
          fp ct).lineNumberMapping.afterLineCount ∧
    (createFallbackAnalysis fp2 ct2 e).lineNumberMapping.beforeLineCount = 0 ∧
    (createFallbackAnalysis fp2 ct2 e).lineNumberMapping.afterLineCount = 0 := by
  refine ⟨?_, ?_, rfl, rfl⟩ <;>
    cases ct <;> simp [analyzeFileDiff] <;> exact splitNl_length_pos _

theorem joinNl_cons_cons (s t : String) (rest : List String) :
    joinNl (s :: t :: rest) = s ++ "\n" ++ joinNl (t :: rest) := rfl

/-- C10: two runs of a successful analysis that differ only in the
random hash placeholders agree on chunks, summary, recommendation and
line-number mapping, and their `gitDiffFormat` strings differ only in
the index header segment built from the hashes. -/
theorem analyzeFileDiff_deterministic
    (dO : String → String → List DiffPart)
    (pO : String → String → String → String → String → String)
    (bc ac fp : String) (ct : ChangeType) (hashA hashB hashA2 hashB2 : String) :
    (analyzeFileDiff dO pO hashA hashB (Except.ok bc) (Except.ok ac) fp ct).chunks =
      (analyzeFileDiff dO pO hashA2 hashB2 (Except.ok bc) (Except.ok ac) fp ct).chunks ∧
    (analyzeFileDiff dO pO hashA hashB (Except.ok bc) (Except.ok ac) fp ct).summary =
      (analyzeFileDiff dO pO hashA2 hashB2 (Except.ok bc) (Except.ok ac) fp ct).summary ∧
    (analyzeFileDiff dO pO hashA hashB (Except.ok bc) (Except.ok ac)
        fp ct).analysisRecommendation =
      (analyzeFileDiff dO pO hashA2 hashB2 (Except.ok bc) (Except.ok ac)
        fp ct).analysisRecommendation ∧
    (analyzeFileDiff dO pO hashA hashB (Except.ok bc) (Except.ok ac)
        fp ct).lineNumberMapping =
      (analyzeFileDiff dO pO hashA2 hashB2 (Except.ok bc) (Except.ok ac)
        fp ct).lineNumberMapping ∧
    ∃ pre post,
      (analyzeFileDiff dO pO hashA hashB (Except.ok bc) (Except.ok ac) fp ct).gitDiffFormat =
        pre ++ indexSegment ct hashA hashB ++ post ∧
      (analyzeFileDiff dO pO hashA2 hashB2 (Except.ok bc) (Except.ok ac) fp ct).gitDiffFormat =
        pre ++ indexSegment ct hashA2 hashB2 ++ post := by
  cases ct with
  | A =>
    have e1 : (analyzeFileDiff dO pO hashA hashB (Except.ok bc) (Except.ok ac)
        fp ChangeType.A).gitDiffFormat =
        joinNl (("diff --git a/" ++ fp ++ " b/" ++ fp) :: "new file mode 100644" ::
          ("index 0000000.." ++ hashA) :: "--- /dev/null" :: ("+++ b/" ++ fp) ::
          (splitNl (pO fp "" ac "/dev/null" ("b/" ++ fp))).drop 4) := rfl
    have e2 : (analyzeFileDiff dO pO hashA2 hashB2 (Except.ok bc) (Except.ok ac)
        fp ChangeType.A).gitDiffFormat =
        joinNl (("diff --git a/" ++ fp ++ " b/" ++ fp) :: "new file mode 100644" ::
          ("index 0000000.." ++ hashA2) :: "--- /dev/null" :: ("+++ b/" ++ fp) ::
          (splitNl (pO fp "" ac "/dev/null" ("b/" ++ fp))).drop 4) := rfl
    refine ⟨rfl, rfl, rfl, rfl,
      "diff --git a/" ++ fp ++ " b/" ++ fp ++ "\n" ++ "new file mode 100644" ++ "\n",
      "\n" ++ joinNl ("--- /dev/null" :: ("+++ b/" ++ fp) ::
        (splitNl (pO fp "" ac "/dev/null" ("b/" ++ fp))).drop 4), ?_, ?_⟩
    · rw [e1]
      simp only [indexSegment, joinNl_cons_cons, String.append_assoc]
    · rw [e2]
      simp only [indexSegment, joinNl_cons_cons, String.append_assoc]
  | D =>
    have e1 : (analyzeFileDiff dO pO hashA hashB (Except.ok bc) (Except.ok ac)
        fp ChangeType.D).gitDiffFormat =
        joinNl (("diff --git a/" ++ fp ++ " b/" ++ fp) :: "deleted file mode 100644" ::
          ("index " ++ hashA ++ "..0000000") :: ("--- a/" ++ fp) :: "+++ /dev/null" ::
          (splitNl (pO fp bc "" ("a/" ++ fp) "/dev/null")).drop 4) := rfl
    have e2 : (analyzeFileDiff dO pO hashA2 hashB2 (Except.ok bc) (Except.ok ac)
        fp ChangeType.D).gitDiffFormat =
        joinNl (("diff --git a/" ++ fp ++ " b/" ++ fp) :: "deleted file mode 100644" ::
          ("index " ++ hashA2 ++ "..0000000") :: ("--- a/" ++ fp) :: "+++ /dev/null" ::
          (splitNl (pO fp bc "" ("a/" ++ fp) "/dev/null")).drop 4) := rfl
    refine ⟨rfl, rfl, rfl, rfl,
      "diff --git a/" ++ fp ++ " b/" ++ fp ++ "\n" ++ "deleted file mode 100644" ++ "\n",
      "\n" ++ joinNl (("--- a/" ++ fp) :: "+++ /dev/null" ::
        (splitNl (pO fp bc "" ("a/" ++ fp) "/dev/null")).drop 4), ?_, ?_⟩
    · rw [e1]
      simp only [indexSegment, joinNl_cons_cons, String.append_assoc]
    · rw [e2]
      simp only [indexSegment, joinNl_cons_cons, String.append_assoc]
  | M =>
    have e1 : (analyzeFileDiff dO pO hashA hashB (Except.ok bc) (Except.ok ac)
        fp ChangeType.M).gitDiffFormat =
        joinNl (("diff --git a/" ++ fp ++ " b/" ++ fp) ::
          ("index " ++ hashA ++ ".." ++ hashB ++ " 100644") :: ("--- a/" ++ fp) ::
          ("+++ b/" ++ fp) ::
          (splitNl (pO fp bc ac ("a/" ++ fp) ("b/" ++ fp))).drop 4) := rfl
    have e2 : (analyzeFileDiff dO pO hashA2 hashB2 (Except.ok bc) (Except.ok ac)
        fp ChangeType.M).gitDiffFormat =
        joinNl (("diff --git a/" ++ fp ++ " b/" ++ fp) ::
          ("index " ++ hashA2 ++ ".." ++ hashB2 ++ " 100644") :: ("--- a/" ++ fp) ::
          ("+++ b/" ++ fp) ::
          (splitNl (pO fp bc ac ("a/" ++ fp) ("b/" ++ fp))).drop 4) := rfl
    refine ⟨rfl, rfl, rfl, rfl,
      "diff --git a/" ++ fp ++ " b/" ++ fp ++ "\n",
      "\n" ++ joinNl (("--- a/" ++ fp) :: ("+++ b/" ++ fp) ::
        (splitNl (pO fp bc ac ("a/" ++ fp) ("b/" ++ fp))).drop 4), ?_, ?_⟩
    · rw [e1]
      simp only [indexSegment, joinNl_cons_cons, String.append_assoc]
    · rw [e2]
      simp only [indexSegment, joinNl_cons_cons, String.append_assoc]

end CodeCommitDiff

